import Mathlib

/-!
Verification of the H-1B data-integration and elasticity-simulation pipeline.

This file gives a shallow embedding of the core functions of the repository
(`prepare.py`: `detect_employer_column`, `load_and_clean`,
`integrate_employers`; `simulation.py`: `simulate_fee_change`) and proves or
refutes the stated properties of the pipeline.

Tables are modelled as lists of rows.  Cell values that the source reads as
strings are `String`; numeric cells are rationals (the source uses machine
floats; exact rounding of floats is not modelled).  Pandas/numpy float
division by zero is modelled by the `FVal` type with `nan` and signed
infinities.
-/


/-! ## String utilities

The source normalizes headers with `str.strip().str.replace(" ", "_")`,
matches numeric-column aliases with `alt.lower().replace("_","") in
c.lower().replace("_","")`, and canonicalizes employer names with
`.str.upper().str.strip()`.  These are modelled on `List Char` so that all
definitions reduce in the kernel. -/

namespace H1B

/-- Whitespace test used by `strip`. -/
def isWS (c : Char) : Bool := c == ' ' || c == '\t' || c == '\n' || c == '\r'

/-- Drop leading and trailing whitespace (Python `str.strip`). -/
def trimChars (cs : List Char) : List Char :=
  ((cs.dropWhile isWS).reverse.dropWhile isWS).reverse

/-- Header normalization from `load_and_clean`:
`df.columns.str.strip().str.replace(" ", "_")`. -/
def normalizeHeader (s : String) : String :=
  ⟨(trimChars s.data).map (fun c => if c == ' ' then '_' else c)⟩

/-- Alias-matching key from `load_and_clean`: `x.lower().replace("_", "")`. -/
def normKey (s : String) : String :=
  ⟨(s.data.map Char.toLower).filter (fun c => c != '_')⟩

/-- Python `needle in hay` substring test. -/
def strContains (hay needle : String) : Bool :=
  hay.data.tails.any (fun t => needle.data.isPrefixOf t)

/-- Canonical employer key from `integrate_employers`:
`.astype(str).str.upper().str.strip()`. -/
def canon (s : String) : String :=
  ⟨trimChars (s.data.map Char.toUpper)⟩

/-! ## Numeric coercion (`load_and_clean`, lines 84–90)

`df[found].astype(str).replace(r"[^0-9.\-]", "", regex=True).replace("", "0")`
then `pd.to_numeric(cleaned, errors="coerce").fillna(0)`. -/

/-- Value of a list of decimal digit characters. -/
def digitsToNat (cs : List Char) : ℕ :=
  cs.foldl (fun n c => 10 * n + (c.toNat - 48)) 0

/-- Digit-level parse of a string already stripped to `[0-9.\-]`, with the
acceptance grammar of `pd.to_numeric`: an optional leading minus sign, then
digits with at most one decimal point and at least one digit.  The result is
(sign, integer part, fractional digits, number of fractional digits); `none`
models the NaN produced by `errors="coerce"`. -/
def parseDigits (s : String) : Option (Bool × ℕ × ℕ × ℕ) :=
  let cs := s.data
  let neg := cs.head? == some '-'
  let body := if neg then cs.tail else cs
  if body.all (fun c => c.isDigit || c == '.') &&
      (body.filter (fun c => c == '.')).length ≤ 1 &&
      !(body.filter Char.isDigit).isEmpty then
    let ip := body.takeWhile (fun c => c != '.')
    let fp := (body.dropWhile (fun c => c != '.')).drop 1
    some (neg, digitsToNat ip, digitsToNat fp, fp.length)
  else none

/-- Rational value of a digit-level parse. -/
def digitsVal : Bool × ℕ × ℕ × ℕ → ℚ
  | (neg, ip, fp, k) =>
    (if neg then -1 else 1) * ((ip : ℚ) + (fp : ℚ) / (10 : ℚ) ^ k)

/-- Numeric parse of a stripped cell string, as a rational. -/
def parseCleaned (s : String) : Option ℚ :=
  (parseDigits s).map digitsVal

/-- Strip every character that is not a digit, a dot or a minus sign
(the regex `[^0-9.\-]` → `""`). -/
def stripCell (s : String) : List Char :=
  s.data.filter (fun c => c.isDigit || c == '.' || c == '-')

/-- Per-cell numeric coercion of `load_and_clean`: strip non-numeric
characters, replace an empty result by `"0"`, parse, and coerce parse
failures to `0` (`fillna(0)`). -/
def cleanCell (s : String) : ℚ :=
  let t : String := if (stripCell s).isEmpty then "0" else ⟨stripCell s⟩
  (parseCleaned t).getD 0

/-- Truncation toward zero: the `astype(int)` cast applied to the three
total columns at the end of `load_and_clean`. -/
def truncQ (q : ℚ) : ℤ :=
  if 0 ≤ q then ⌊q⌋ else ⌈q⌉

/-! ## Schema detection (`prepare.py`) -/

/-- Accepted aliases for the employer-name column
(`detect_employer_column`, lines 41–46).  The loader applies it after header
normalization. -/
def empAliases : List String :=
  ["Employer", "Employer Name", "EMPLOYER_NAME", "EMPLOYER"]

/-- Detection of the employer column: the first accepted alias present among
the column names; raising `ValueError` when none is. -/
def detect_employer_column (cols : List String) : Except String String :=
  match empAliases.find? (fun n => cols.contains n) with
  | some n => .ok n
  | none => .error "Employer column not found in H1B dataset."

/-- Alias table for the four numeric outcome columns
(`load_and_clean`, lines 68–73). -/
def name_map : List (String × List String) :=
  [("Initial_Approvals", ["Initial_Approval", "INITIAL_APPROVALS", "Initial Approvals"]),
   ("Continuing_Approvals", ["Continuing_Approval", "CONTINUING_APPROVALS", "Continuing Approvals"]),
   ("Initial_Denials", ["Initial_Denial", "INITIAL_DENIALS", "Initial Denials"]),
   ("Continuing_Denials", ["Continuing_Denial", "CONTINUING_DENIALS", "Continuing Denials"])]

/-- Alias match test of the source: `alt.lower().replace("_", "") in
c.lower().replace("_", "")`. -/
def aliasMatch (c alt : String) : Bool :=
  strContains (normKey c) (normKey alt)

/-- Column resolution for one target field (`load_and_clean`, lines 76–81):
for the first alias with any matching column, the first such column. -/
def findCol (hs : List String) (aliases : List String) : Option String :=
  aliases.findSome? (fun alt => (hs.filter (fun c => aliasMatch c alt)).head?)

/-- Resolution of all four target fields.  The source assigns `df[target]`
after each search, so each target name joins the column list seen by the
following searches (when not already present). -/
def resolveAux : List (String × List String) → List String → List (String × Option String)
  | [], _ => []
  | (t, al) :: rest, hs =>
    (t, findCol hs al) :: resolveAux rest (if hs.contains t then hs else hs ++ [t])

/-- Resolved source column (or `none`) for each of the four numeric fields. -/
def resolveTargets (hs : List String) : List (String × Option String) :=
  resolveAux name_map hs

/-! ## Loading and cleaning (`load_and_clean`) -/

/-- One raw yearly file: a header row and data rows of string cells aligned
with the headers. -/
structure RawFile where
  headers : List String
  rows : List (List String)
deriving DecidableEq

/-- Cell of a row under a given column name (by position in the header
list). -/
def getCellByName (hs : List String) (row : List String) (c : String) : String :=
  ((hs.findIdx? (fun h => h == c)).bind (fun i => row.get? i)).getD ""

/-- Value of one target field for one row: the cleaned cell of the resolved
column, or the zero fill when no alias matched. -/
def targetVal (found : List (String × Option String)) (hs : List String)
    (row : List String) (t : String) : ℚ :=
  match found.find? (fun p => p.1 == t) with
  | some (_, some c) => cleanCell (getCellByName hs row c)
  | _ => 0

/-- One row of the cleaned per-year table, before the final integer cast. -/
structure CleanRow where
  Employer : String
  Initial_Approvals : ℚ
  Continuing_Approvals : ℚ
  Initial_Denials : ℚ
  Continuing_Denials : ℚ
  Total_Approvals : ℚ
  Total_Denials : ℚ
  Total_Applications : ℚ
  Year : ℤ
deriving DecidableEq

/-- Computation of one cleaned row (`load_and_clean`, lines 84–99). -/
def mkCleanRow (year : ℤ) (hs : List String) (found : List (String × Option String))
    (row : List String) : CleanRow :=
  let ia := targetVal found hs row "Initial_Approvals"
  let ca := targetVal found hs row "Continuing_Approvals"
  let idn := targetVal found hs row "Initial_Denials"
  let cdn := targetVal found hs row "Continuing_Denials"
  { Employer := getCellByName hs row "Employer"
    Initial_Approvals := ia
    Continuing_Approvals := ca
    Initial_Denials := idn
    Continuing_Denials := cdn
    Total_Approvals := ia + ca
    Total_Denials := idn + cdn
    Total_Applications := (ia + ca) + (idn + cdn)
    Year := year }

/-- Value of one of the four numeric target fields of a cleaned row, by the
field's column name. -/
def fieldOf (r : CleanRow) (t : String) : ℚ :=
  if t = "Initial_Approvals" then r.Initial_Approvals
  else if t = "Continuing_Approvals" then r.Continuing_Approvals
  else if t = "Initial_Denials" then r.Initial_Denials
  else if t = "Continuing_Denials" then r.Continuing_Denials
  else 0

/-- Processing of one yearly file (`load_and_clean`, lines 59–100): header
normalization, employer-column detection and rename, numeric-column
resolution, per-row cleaning.  The second component lists the target fields
for which the warning `Column not found ... Filled with zeros` is printed. -/
def processFile (year : ℤ) (f : RawFile) : Except String (List CleanRow × List String) :=
  let nh := f.headers.map normalizeHeader
  match detect_employer_column nh with
  | .error e => .error e
  | .ok emp =>
    let nh2 := nh.map (fun c => if c == emp then "Employer" else c)
    let found := resolveTargets nh2
    .ok (f.rows.map (fun row => mkCleanRow year nh2 found row),
         ((found.filter (fun p => p.2 = none)).map (fun p => p.1)))

/-- Sequential processing of every yearly file, concatenating cleaned rows;
the first failing file aborts the whole aggregation. -/
def load_files : List (ℤ × RawFile) → Except String (List CleanRow)
  | [] => .ok []
  | (y, f) :: rest =>
    match processFile y f, load_files rest with
    | .ok p, .ok more => .ok (p.1 ++ more)
    | .error e, _ => .error e
    | _, .error e => .error e

/-- One row of the unified table after the final numeric enforcement
(`load_and_clean`, lines 104–106): totals cast to machine integers. -/
structure UnifiedRow where
  Employer : String
  Total_Approvals : ℤ
  Total_Denials : ℤ
  Total_Applications : ℤ
  Year : ℤ
deriving DecidableEq

/-- Final integer enforcement for one row. -/
def finalize (r : CleanRow) : UnifiedRow :=
  { Employer := r.Employer
    Total_Approvals := truncQ r.Total_Approvals
    Total_Denials := truncQ r.Total_Denials
    Total_Applications := truncQ r.Total_Applications
    Year := r.Year }

/-- The year aggregator (`load_and_clean`): fails when no input file exists,
otherwise cleans every file and concatenates.  The fiscal year of each file
is the integer parsed from its filename. -/
def load_and_clean (files : List (ℤ × RawFile)) : Except String (List UnifiedRow) :=
  if files.isEmpty then .error "No H-1B files found"
  else
    match load_files files with
    | .ok rows => .ok (rows.map finalize)
    | .error e => .error e

/-! ## Employer integration (`integrate_employers`, `prepare.py` lines 118–176)

A dataframe row is an association list from column name to cell value.  The
three reference tables enter as the lists of raw names of their detected
company column (`fortune[col]`, `opt["Employer_std"]`'s source,
`cpt["Company"]`); for the CPT list these are the names of the rows
remaining after the optional `CPT Friendly` checkmark filter of lines
155–157, when that column exists.  The source canonicalizes each list with
`.astype(str).str.upper().str.strip()` before the membership joins of lines
169–173. -/

/-- Cell value of a classified dataframe. -/
inductive Val where
  | vstr (s : String)
  | vbool (b : Bool)
  | vint (n : ℤ)
deriving DecidableEq

/-- One dataframe row: column name to value, in column order. -/
abbrev PRow := List (String × Val)

/-- Value of a column in a row. -/
def lookupV (r : PRow) (c : String) : Option Val :=
  (r.find? (fun p => p.1 == c)).map (fun p => p.2)

/-- Column assignment `df[c] = v`: replace the column in place when present,
otherwise append it. -/
def upsert : PRow → String → Val → PRow
  | [], c, v => [(c, v)]
  | (k, w) :: t, c, v =>
    if k == c then (c, v) :: t else (k, w) :: upsert t c v

/-- Python `str(x)` on a cell (`astype(str)`); a missing cell is the string
pandas gives a missing value. -/
def asStr : Option Val → String
  | some (.vstr s) => s
  | some (.vbool b) => if b then "True" else "False"
  | some (.vint n) => toString n
  | none => "nan"

/-- String content of a column, as read by the membership tests. -/
def getStr (r : PRow) (c : String) : String :=
  asStr (lookupV r c)

/-- Boolean content of a column, as read by the flag summation. -/
def getBool (r : PRow) (c : String) : Bool :=
  match lookupV r c with
  | some (.vbool b) => b
  | _ => false

/-- Integer value of a boolean in a pandas sum. -/
def boolInt (b : Bool) : ℤ := if b then 1 else 0

/-- Per-row effect of `integrate_employers` lines 169–173, applied with the
already canonicalized key sets of the three reference lists.  Each column
assignment of the source acts row-wise, so the five assignments compose into
this single row transform. -/
def integrateRow (fKeys oKeys cKeys : List String) (r : PRow) : PRow :=
  let r1 := upsert r "Employer_std" (.vstr (canon (asStr (lookupV r "Employer"))))
  let r2 := upsert r1 "Fortune500" (.vbool (fKeys.contains (getStr r1 "Employer_std")))
  let r3 := upsert r2 "OPT_friendly" (.vbool (oKeys.contains (getStr r2 "Employer_std")))
  let r4 := upsert r3 "CPT_friendly" (.vbool (cKeys.contains (getStr r3 "Employer_std")))
  upsert r4 "Flexibility_Index"
    (.vint (boolInt (getBool r4 "OPT_friendly") + boolInt (getBool r4 "CPT_friendly")))

/-- The employer classifier: canonicalizes the reference names
(`.str.upper().str.strip()`) and writes the five derived columns.  In the
source (lines 168–176) the five assignments are made directly on the caller's
dataframe without a copy, so after the call the argument denotes exactly the
returned table; the function also returns that same object. -/
def integrate_employers (fortuneNames optNames cptNames : List String)
    (df : List PRow) : List PRow :=
  df.map (integrateRow (fortuneNames.map canon) (optNames.map canon) (cptNames.map canon))

/-- State of the caller's dataframe after `integrate_employers` returns: the
source mutates the argument in place (no `df.copy()` is taken), so it equals
the function's result. -/
def integrate_employers_argAfter (fortuneNames optNames cptNames : List String)
    (df : List PRow) : List PRow :=
  integrate_employers fortuneNames optNames cptNames df

/-! ## Elasticity simulation (`simulation.py`, `simulate_fee_change`)

The simulator's input is a numeric dataframe: a column-name list and rows of
rationals aligned with it.

`simulation.py` imports only pandas (line 1), yet the function body uses
`np.where` at lines 64 and 69; `np` is bound nowhere in the module, so the
first `np.where` raises `NameError: name 'np' is not defined` whenever the
`Flexibility_Index` column is present.  Only the missing-column `ValueError`
branch (line 66) is reachable.  `simulate_fee_change` below models the
function as written, with an error on both branches.

The function's docstring ("Returns summary : Aggregated results showing
baseline and simulated applications by flexibility and year") and its step
comments document the computation of lines 63–81; that documented intent —
`np.where` read as numpy's `where` — is modelled by the `flexGroup`,
`simulated`, `recordChange` and `simulate_fee_change_intended` definitions,
which embed code that is unreachable in the program as written.  Pandas
float division is modelled by `FVal`, with `nan` and the signed infinities
for division by zero. -/

/-- A pandas float result: a number, NaN, or a signed infinity. -/
inductive FVal where
  | num (q : ℚ)
  | nan
  | pinf
  | ninf
deriving DecidableEq

/-- IEEE-style division of finite floats: `0/0` is NaN, `x/0` for `x ≠ 0` a
signed infinity. -/
def divF (a b : ℚ) : FVal :=
  if b = 0 then
    if a = 0 then .nan else if 0 < a then .pinf else .ninf
  else .num (a / b)

/-- The `Change_%` formula `100 * (sim / base - 1)` on float results. -/
def chPct (sim base : ℚ) : FVal :=
  match divF sim base with
  | .num q => .num (100 * (q - 1))
  | .nan => .nan
  | .pinf => .pinf
  | .ninf => .ninf

/-- Numeric dataframe passed to the simulator. -/
structure QFrame where
  cols : List String
  rows : List (List ℚ)
deriving DecidableEq

/-- Numeric cell of a row under a column name. -/
def getQ (cols : List String) (row : List ℚ) (c : String) : ℚ :=
  ((cols.findIdx? (fun h => h == c)).bind (fun i => row.get? i)).getD 0

/-- Step 1 of the documented intent: `np.where(df["Flexibility_Index"] > 0.5,
"More Flexible", "Less Flexible")` (line 64, the statement whose unbound
`np` aborts the program). -/
def flexGroup (cols : List String) (row : List ℚ) : String :=
  if getQ cols row "Flexibility_Index" > 1/2 then "More Flexible" else "Less Flexible"

/-- Step 2 of the documented intent: `np.where(df["Flex_Group"] ==
"More Flexible", elasticity_high, elasticity_low)` (line 69). -/
def elasticityOf (eLow eHigh : ℚ) (cols : List String) (row : List ℚ) : ℚ :=
  if flexGroup cols row == "More Flexible" then eHigh else eLow

/-- Step 3 of the documented intent: `Simulated_Total_Applications =
Total_Applications * (1 + Elasticity * alpha)` (line 72). -/
def simulated (alpha eLow eHigh : ℚ) (cols : List String) (row : List ℚ) : ℚ :=
  getQ cols row "Total_Applications" * (1 + elasticityOf eLow eHigh cols row * alpha)

/-- Per-record `Change_%` column of the documented intent (line 73);
unreachable in the program as written, since line 64 raises `NameError`
first. -/
def recordChange (alpha eLow eHigh : ℚ) (cols : List String) (row : List ℚ) : FVal :=
  chPct (simulated alpha eLow eHigh cols row) (getQ cols row "Total_Applications")

/-- Grouping key of a record: its `Year` (when that column exists, as in the
source's `group_cols` filter) and its flexibility group. -/
def rowKey (cols : List String) (row : List ℚ) : Option ℚ × String :=
  (if cols.contains "Year" then some (getQ cols row "Year") else none,
   flexGroup cols row)

/-- The distinct grouping keys of the table. -/
def groupKeys (df : QFrame) : List (Option ℚ × String) :=
  (df.rows.map (rowKey df.cols)).dedup

/-- Aggregated baseline applications of one group (`groupby(...).sum()`). -/
def baselineSum (df : QFrame) (k : Option ℚ × String) : ℚ :=
  ((df.rows.filter (fun r => rowKey df.cols r = k)).map
    (fun r => getQ df.cols r "Total_Applications")).sum

/-- Aggregated simulated applications of one group. -/
def simSum (df : QFrame) (alpha eLow eHigh : ℚ) (k : Option ℚ × String) : ℚ :=
  ((df.rows.filter (fun r => rowKey df.cols r = k)).map
    (simulated alpha eLow eHigh df.cols)).sum

/-- One row of the simulator's summary table. -/
structure SummaryRow where
  key : Option ℚ × String
  Total_Applications : ℚ
  Simulated_Total_Applications : ℚ
  Change : FVal
deriving DecidableEq

/-- The elasticity simulator as written (`simulate_fee_change`, lines
60–86): when the `Flexibility_Index` column is absent it raises `ValueError`
(line 66); when the column is present, line 64 evaluates `np.where` with
`np` unbound — the module imports only pandas — and the call raises
`NameError: name 'np' is not defined` before any grouping, projection or
division runs.  Neither branch returns a summary.  The parameters `alpha`,
`eLow`, `eHigh` are kept for signature fidelity; the program fails before
reading them. -/
def simulate_fee_change (df : QFrame) (alpha eLow eHigh : ℚ) :
    Except String (List SummaryRow) :=
  if df.cols.contains "Flexibility_Index" then
    .error "NameError: name 'np' is not defined"
  else .error "Column 'Flexibility_Index' is missing from dataframe."

/-- The elasticity simulator's documented intent (the computation of lines
63–81 with `np.where` read as numpy's `where`, per the docstring and step
comments): partition by the 0.5 threshold, per-group elasticity, per-record
projection, and the per-(Year, Flex_Group) sums with `Change_% = 100 *
(sim / base - 1)` computed on the aggregated sums (line 81).  The program as
written never reaches this computation (missing numpy import). -/
def simulate_fee_change_intended (df : QFrame) (alpha eLow eHigh : ℚ) :
    Except String (List SummaryRow) :=
  if df.cols.contains "Flexibility_Index" then
    .ok ((groupKeys df).map (fun k =>
      { key := k
        Total_Applications := baselineSum df k
        Simulated_Total_Applications := simSum df alpha eLow eHigh k
        Change := chPct (simSum df alpha eLow eHigh k) (baselineSum df k) }))
  else .error "Column 'Flexibility_Index' is missing from dataframe."

/-- State of the caller's dataframe after a `simulate_fee_change` call: line
60 takes `df = df.copy()` and every subsequent assignment targets the copy,
so the argument is unchanged (the call also raises before returning). -/
def simulate_fee_change_argAfter (df : QFrame) (alpha eLow eHigh : ℚ) : QFrame :=
  df


theorem simSum_eq (df : QFrame) (alpha eLow eHigh : ℚ) (k : Option ℚ × String) :
    simSum df alpha eLow eHigh k =
      (1 + (if k.2 == "More Flexible" then eHigh else eLow) * alpha) * baselineSum df k := by
  unfold simSum baselineSum
  rw [List.map_congr_left (g := fun r =>
    (1 + (if k.2 == "More Flexible" then eHigh else eLow) * alpha) *
      getQ df.cols r "Total_Applications") ?he]
  · exact List.sum_map_mul_left _ _ _
  · intro r hr
    have hk : rowKey df.cols r = k := by simpa using (List.mem_filter.mp hr).2
    have hg : flexGroup df.cols r = k.2 := by rw [← hk]; rfl
    simp [simulated, elasticityOf, hg, mul_comm]

theorem simulate_single (y fx tapp alpha eLow eHigh : ℚ) :
    simulate_fee_change_intended
        ⟨["Year", "Flexibility_Index", "Total_Applications"], [[y, fx, tapp]]⟩
        alpha eLow eHigh =
      .ok [{ key := (some y, if fx > 1/2 then "More Flexible" else "Less Flexible"),
             Total_Applications := tapp,
             Simulated_Total_Applications :=
               tapp * (1 + (if fx > 1/2 then eHigh else eLow) * alpha),
             Change := chPct (tapp * (1 + (if fx > 1/2 then eHigh else eLow) * alpha)) tapp }] := by
  by_cases hf : fx > 1/2 <;>
    simp [simulate_fee_change_intended, groupKeys, rowKey, flexGroup, getQ, baselineSum,
      simSum, simulated, elasticityOf, List.dedup_cons_of_not_mem, hf]

theorem simulate_nameerror (df : QFrame) (alpha eLow eHigh : ℚ)
    (h : df.cols.contains "Flexibility_Index" = true) :
    simulate_fee_change df alpha eLow eHigh = .error "NameError: name 'np' is not defined" := by
  unfold simulate_fee_change
  rw [if_pos h]

/-- C4: `simulate_fee_change` fails with the missing-column error
(`ValueError`, line 66, the spec's `MissingColumnError`) if and only if the
input table has no `Flexibility_Index` column; it raises rather than
silently substituting a default grouping.  When the column is present the
call also fails, but with a different error (`NameError`, line 64), so the
missing-column error is raised exactly when the column is absent. -/
theorem simulate_missing_column_iff (df : QFrame) (alpha eLow eHigh : ℚ) :
    (simulate_fee_change df alpha eLow eHigh =
        .error "Column 'Flexibility_Index' is missing from dataframe.") ↔
      df.cols.contains "Flexibility_Index" = false := by
  unfold simulate_fee_change
  cases h : df.cols.contains "Flexibility_Index" <;> simp [h]

/-- C2: the claimed partition and per-record formula are the documented
intent of lines 63-72, but the program never performs them: the module
imports only pandas, so the call raises `NameError: name 'np' is not
defined` at line 64 for every table with a `Flexibility_Index` column (the
first conjunct evaluates the code at such an input).  Under the documented
intent, every record falls in exactly one of the two groups (`More
Flexible` iff `Flexibility_Index > 0.5`), `Simulated_Total_Applications =
Total_Applications * (1 + eps_group * alpha)`, and negative simulated
values are not clamped at zero (a concrete record evaluates to `-50`). -/
theorem simulate_partition_and_formula :
    (simulate_fee_change
        ⟨["Year", "Flexibility_Index", "Total_Applications"], [[2020, 0, 100]]⟩
        (1/10) (-1/2) (-1/5) = .error "NameError: name 'np' is not defined") ∧
    (∀ (alpha eLow eHigh : ℚ) (cols : List String) (row : List ℚ),
        (flexGroup cols row = "More Flexible" ↔
           getQ cols row "Flexibility_Index" > 1/2) ∧
        (flexGroup cols row = "More Flexible" ∨
           flexGroup cols row = "Less Flexible") ∧
        ¬(flexGroup cols row = "More Flexible" ∧
           flexGroup cols row = "Less Flexible") ∧
        simulated alpha eLow eHigh cols row =
          getQ cols row "Total_Applications" *
            (1 + (if flexGroup cols row = "More Flexible" then eHigh else eLow) * alpha)) ∧
    simulated 3 (-1/2) (-1/5) ["Total_Applications", "Flexibility_Index"] [100, 0] = -50 ∧
    ((-50 : ℚ) < 0) := by
  refine ⟨rfl, ?_, ?_, by norm_num⟩
  · intro alpha eLow eHigh cols row
    refine ⟨?_, ?_, ?_, ?_⟩
    · unfold flexGroup; split <;> simp_all
    · unfold flexGroup; split <;> simp
    · unfold flexGroup; split <;> simp
    · unfold simulated elasticityOf flexGroup
      split <;> simp
  · have hq : getQ ["Total_Applications", "Flexibility_Index"] [100, 0] "Total_Applications" = 100 := rfl
    have hf : getQ ["Total_Applications", "Flexibility_Index"] [100, 0] "Flexibility_Index" = 0 := rfl
    unfold simulated elasticityOf flexGroup
    rw [hq, hf]
    norm_num
    rw [if_neg (by decide)]
    norm_num

/-- C10 counterexample: at a table whose single group has zero baseline, the
call raises `NameError` (numpy never imported) and returns no summary at
all, so no `Change_%` results — the claim's "a non-numeric value rather
than ... a raised error" is false of the program as written. -/
theorem change_division_counterexample :
    (simulate_fee_change
        ⟨["Year", "Flexibility_Index", "Total_Applications"], [[2020, 0, 0]]⟩
        1 (-1/2) (-1/5) = .error "NameError: name 'np' is not defined") ∧
    (simulate_fee_change
        ⟨["Year", "Flexibility_Index", "Total_Applications"], [[2020, 0, 0]]⟩
        1 (-1/2) (-1/5)).toOption = none := ⟨rfl, rfl⟩

/-- C10 amended: the divisions defining `Change_%` (lines 73 and 81) are
unguarded in the source but unreachable as written — every call on a table
with a `Flexibility_Index` column raises `NameError` at line 64 before
either division executes; under the documented intent of lines 63-81, a
(Year, Flex_Group) group whose aggregated baseline is zero gets a NaN
`Change_%` in the summary, and a record with `Total_Applications = 0` gets
a NaN in the per-record column. -/
theorem change_division_unguarded :
    (∀ (df : QFrame) (alpha eLow eHigh : ℚ),
        df.cols.contains "Flexibility_Index" = true →
        simulate_fee_change df alpha eLow eHigh =
          .error "NameError: name 'np' is not defined") ∧
    (∀ (df : QFrame) (alpha eLow eHigh : ℚ) (s : List SummaryRow),
        simulate_fee_change_intended df alpha eLow eHigh = .ok s →
        ∀ r ∈ s, r.Total_Applications = 0 → r.Change = FVal.nan) ∧
    (∀ (alpha eLow eHigh : ℚ) (cols : List String) (row : List ℚ),
        getQ cols row "Total_Applications" = 0 →
        recordChange alpha eLow eHigh cols row = FVal.nan) := by
  refine ⟨simulate_nameerror, ?_, ?_⟩
  · intro df alpha eLow eHigh s hok r hr h0
    unfold simulate_fee_change_intended at hok
    split at hok
    · simp only [Except.ok.injEq] at hok
      subst hok
      obtain ⟨k, hk, rfl⟩ := List.mem_map.mp hr
      have hb : baselineSum df k = 0 := h0
      have hs : simSum df alpha eLow eHigh k = 0 := by rw [simSum_eq, hb, mul_zero]
      show chPct (simSum df alpha eLow eHigh k) (baselineSum df k) = FVal.nan
      rw [hs, hb]
      simp [chPct, divF]
    · cases hok
  · intro alpha eLow eHigh cols row h0
    unfold recordChange simulated
    rw [h0]
    simp [chPct, divF]

/-- Witness for amended C10: the code's `NameError` at a concrete
zero-baseline table, the intended summary's NaN there, and a concrete zero
record. -/
theorem change_division_unguarded_witness :
    (simulate_fee_change
        ⟨["Year", "Flexibility_Index", "Total_Applications"], [[2020, 0, 0]]⟩
        1 (-1/2) (-1/5) = .error "NameError: name 'np' is not defined") ∧
    (simulate_fee_change_intended
        ⟨["Year", "Flexibility_Index", "Total_Applications"], [[2020, 0, 0]]⟩ 1 (-1/2) (-1/5) =
      .ok [{ key := (some 2020, "Less Flexible"), Total_Applications := 0,
             Simulated_Total_Applications := 0, Change := FVal.nan }]) ∧
    ({ key := (some 2020, "Less Flexible"), Total_Applications := 0,
       Simulated_Total_Applications := 0, Change := FVal.nan } : SummaryRow).Change = FVal.nan ∧
    getQ ["Total_Applications"] [0] "Total_Applications" = 0 ∧
    recordChange 1 (-1/2) (-1/5) ["Total_Applications"] [0] = FVal.nan := by
  have hok : simulate_fee_change_intended
      ⟨["Year", "Flexibility_Index", "Total_Applications"], [[2020, 0, 0]]⟩ 1 (-1/2) (-1/5) =
      .ok [{ key := (some 2020, "Less Flexible"), Total_Applications := 0,
             Simulated_Total_Applications := 0, Change := FVal.nan }] := by
    rw [simulate_single]
    norm_num [chPct, divF]
  refine ⟨change_division_unguarded.1 _ 1 (-1/2) (-1/5) rfl, hok, ?_, rfl, ?_⟩
  · exact change_division_unguarded.2.1 _ 1 (-1/2) (-1/5) _ hok _ (by simp) rfl
  · exact change_division_unguarded.2.2 1 (-1/2) (-1/5) _ _ rfl

/-- C3 counterexample: at a concrete table with a `Flexibility_Index`
column and `alpha = 0`, the call raises `NameError` (numpy never imported)
and returns no summary at all, so it does not return a summary with
`Change_% = 0` for every group; moreover even the documented intent of
lines 63-81 gives `Change_% = NaN` (not 0) for this table's zero-baseline
group. -/
theorem alpha_zero_nan_counterexample :
    (simulate_fee_change
        ⟨["Year", "Flexibility_Index", "Total_Applications"], [[2020, 0, 0]]⟩
        0 (-1/2) (-1/5) = .error "NameError: name 'np' is not defined") ∧
    (simulate_fee_change
        ⟨["Year", "Flexibility_Index", "Total_Applications"], [[2020, 0, 0]]⟩
        0 (-1/2) (-1/5)).toOption = none ∧
    simulate_fee_change_intended
        ⟨["Year", "Flexibility_Index", "Total_Applications"], [[2020, 0, 0]]⟩
        0 (-1/2) (-1/5) =
      .ok [{ key := (some 2020, "Less Flexible"), Total_Applications := 0,
             Simulated_Total_Applications := 0, Change := FVal.nan }] ∧
    FVal.nan ≠ FVal.num 0 := by
  refine ⟨rfl, rfl, ?_, by simp⟩
  rw [simulate_single]
  norm_num [chPct, divF]

/-- C3 amended: with a `Flexibility_Index` column present, every call (any
alpha) raises `NameError` and returns no summary; under the documented
intent of lines 63-81, the `alpha = 0` summary has `Change_% = 0` for every
group whose aggregated baseline `Total_Applications` is nonzero, for any
elasticity values. -/
theorem alpha_zero_change_zero (df : QFrame) (eLow eHigh : ℚ)
    (hflex : df.cols.contains "Flexibility_Index" = true) :
    (∀ alpha : ℚ, simulate_fee_change df alpha eLow eHigh =
        .error "NameError: name 'np' is not defined") ∧
    (∀ s : List SummaryRow, simulate_fee_change_intended df 0 eLow eHigh = .ok s →
        ∀ r ∈ s, r.Total_Applications ≠ 0 → r.Change = FVal.num 0) := by
  refine ⟨fun alpha => simulate_nameerror df alpha eLow eHigh hflex, ?_⟩
  intro s hok
  unfold simulate_fee_change_intended at hok
  rw [if_pos hflex] at hok
  simp only [Except.ok.injEq] at hok
  subst hok
  intro r hr hne
  obtain ⟨k, hk, rfl⟩ := List.mem_map.mp hr
  have hne' : baselineSum df k ≠ 0 := hne
  have hs : simSum df 0 eLow eHigh k = baselineSum df k := by
    rw [simSum_eq]; ring
  show chPct (simSum df 0 eLow eHigh k) (baselineSum df k) = FVal.num 0
  rw [hs]
  simp [chPct, divF, hne', div_self hne']

/-- Witness for amended C3 at a concrete one-record table with baseline
100. -/
theorem alpha_zero_change_zero_witness :
    (simulate_fee_change
        ⟨["Year", "Flexibility_Index", "Total_Applications"], [[2020, 0, 100]]⟩
        0 (-1/2) (-1/5) = .error "NameError: name 'np' is not defined") ∧
    ({ key := (some (2020 : ℚ), "Less Flexible"), Total_Applications := 100,
       Simulated_Total_Applications := 100, Change := FVal.num 0 } : SummaryRow).Change =
      FVal.num 0 := by
  obtain ⟨h1, h2⟩ := alpha_zero_change_zero
    ⟨["Year", "Flexibility_Index", "Total_Applications"], [[2020, 0, 100]]⟩
    (-1/2) (-1/5) rfl
  have hok : simulate_fee_change_intended
      ⟨["Year", "Flexibility_Index", "Total_Applications"], [[2020, 0, 100]]⟩ 0 (-1/2) (-1/5) =
      .ok [{ key := (some 2020, "Less Flexible"), Total_Applications := 100,
             Simulated_Total_Applications := 100, Change := FVal.num 0 }] := by
    rw [simulate_single]
    norm_num [chPct, divF]
  exact ⟨h1 0, h2 _ hok _ (by simp) (by norm_num)⟩

theorem detect_ok_mem (cols : List String) (n : String)
    (h : detect_employer_column cols = .ok n) : n ∈ empAliases ∧ n ∈ cols := by
  unfold detect_employer_column at h
  cases hf : empAliases.find? (fun a => cols.contains a) with
  | none => rw [hf] at h; cases h
  | some m =>
    rw [hf] at h
    cases h
    refine ⟨List.mem_of_find?_eq_some hf, ?_⟩
    have := List.find?_some hf
    simpa using this

theorem detect_error_not_mem (cols : List String) (e : String)
    (h : detect_employer_column cols = .error e) : ∀ a ∈ empAliases, a ∉ cols := by
  unfold detect_employer_column at h
  cases hf : empAliases.find? (fun a => cols.contains a) with
  | some m => rw [hf] at h; cases h
  | none =>
    intro a ha hmem
    have := List.find?_eq_none.mp hf a ha
    simp at this
    exact this hmem

/-- C9: processing a source file fails (with the employer-column schema
error) if and only if none of the accepted employer aliases occurs among the
normalized headers; a file whose normalized headers contain an accepted
alias is processed without error. -/
theorem schema_error_iff (year : ℤ) (f : RawFile) :
    (∃ e, processFile year f = .error e) ↔
      ∀ a ∈ empAliases, a ∉ f.headers.map normalizeHeader := by
  unfold processFile
  cases hd : detect_employer_column (f.headers.map normalizeHeader) with
  | ok emp =>
    simp only [hd, reduceCtorEq, exists_false, false_iff]
    intro hall
    obtain ⟨hmem, hcol⟩ := detect_ok_mem _ _ hd
    exact hall emp hmem hcol
  | error e =>
    simp only [hd, Except.error.injEq, exists_eq', true_iff]
    exact detect_error_not_mem _ _ hd


theorem findCol_eq_none (hs : List String) (al : List String)
    (h : ∀ alt ∈ al, ∀ c ∈ hs, aliasMatch c alt = false) : findCol hs al = none := by
  unfold findCol
  rw [List.findSome?_eq_none_iff]
  intro alt halt
  have : hs.filter (fun c => aliasMatch c alt) = [] := by
    rw [List.filter_eq_nil_iff]
    intro c hc
    simp [h alt halt c hc]
  rw [this]
  rfl

theorem resolveAux_none (nm : List (String × List String)) (hs : List String)
    (H1 : ∀ pr ∈ nm, ∀ alt ∈ pr.2, ∀ c ∈ hs, aliasMatch c alt = false)
    (H2 : nm.Pairwise (fun p q => ∀ alt ∈ q.2, aliasMatch p.1 alt = false)) :
    resolveAux nm hs = nm.map (fun p => (p.1, (none : Option String))) := by
  induction nm generalizing hs with
  | nil => rfl
  | cons pr rest ih =>
    obtain ⟨t, al⟩ := pr
    have hfind : findCol hs al = none :=
      findCol_eq_none hs al (fun alt halt c hc => H1 (t, al) (List.mem_cons_self _ _) alt halt c hc)
    simp only [resolveAux, hfind, List.map_cons]
    congr 1
    have hpair := List.pairwise_cons.mp H2
    apply ih
    · intro pr' hpr' alt halt c hc
      by_cases hmem : hs.contains t
      · rw [if_pos hmem] at hc
        exact H1 pr' (List.mem_cons_of_mem _ hpr') alt halt c hc
      · rw [if_neg hmem] at hc
        rcases List.mem_append.mp hc with hc1 | hc2
        · exact H1 pr' (List.mem_cons_of_mem _ hpr') alt halt c hc1
        · have : c = t := by simpa using hc2
          subst this
          exact hpair.1 pr' hpr' alt halt
    · exact hpair.2


theorem empRenameNoMatch :
    ∀ pr ∈ name_map, ∀ alt ∈ pr.2, aliasMatch "Employer" alt = false := by decide

theorem nameMapPairwise :
    name_map.Pairwise (fun p q => ∀ alt ∈ q.2, aliasMatch p.1 alt = false) := by decide

theorem targetVal_all_none (hs : List String) (row : List String) (t : String) :
    targetVal (name_map.map (fun p => (p.1, (none : Option String)))) hs row t = 0 := by
  unfold targetVal
  cases hf : (name_map.map (fun p => (p.1, (none : Option String)))).find?
      (fun p => p.1 == t) with
  | none => rfl
  | some pr =>
    have hm := List.mem_of_find?_eq_some hf
    obtain ⟨q, hq, rfl⟩ := List.mem_map.mp hm
    rfl

theorem targetNamesNoCrossMatch :
    ∀ pr ∈ name_map, ∀ pr2 ∈ name_map, pr.1 ≠ pr2.1 →
      ∀ alt ∈ pr2.2, aliasMatch pr.1 alt = false := by decide

theorem nameMapNamesNodup : (name_map.map (fun p => p.1)).Nodup := by decide

theorem resolveAux_find_none (nm : List (String × List String)) (hs : List String)
    (t : String) (al : List String) (hmem : (t, al) ∈ nm)
    (hns : ∀ alt ∈ al, ∀ c ∈ hs, aliasMatch c alt = false)
    (hcross : ∀ pr ∈ nm, pr.1 ≠ t → ∀ alt ∈ al, aliasMatch pr.1 alt = false)
    (hnodup : (nm.map (fun p => p.1)).Nodup) :
    (resolveAux nm hs).find? (fun p => p.1 == t) = some (t, none) := by
  induction nm generalizing hs with
  | nil => cases hmem
  | cons pr rest ih =>
    obtain ⟨t0, al0⟩ := pr
    rcases List.mem_cons.mp hmem with heq | hmem2
    · injection heq with he1 he2
      subst he1
      subst he2
      have hf : findCol hs al = none := findCol_eq_none hs al hns
      simp only [resolveAux, hf]
      rw [List.find?_cons_of_pos _ (by simp)]
    · have ht0 : t0 ≠ t := by
        have h1 : t0 ∉ rest.map (fun p => p.1) := (List.nodup_cons.mp hnodup).1
        intro he
        apply h1
        rw [he]
        exact List.mem_map.mpr ⟨(t, al), hmem2, rfl⟩
      simp only [resolveAux]
      rw [List.find?_cons_of_neg _ (by simp [ht0])]
      refine ih (if hs.contains t0 then hs else hs ++ [t0]) hmem2 ?_ ?_ ?_
      · intro alt halt c hc
        by_cases hmemt : hs.contains t0
        · rw [if_pos hmemt] at hc
          exact hns alt halt c hc
        · rw [if_neg hmemt] at hc
          rcases List.mem_append.mp hc with h1 | h2
          · exact hns alt halt c h1
          · have hct : c = t0 := by simpa using h2
            rw [hct]
            exact hcross (t0, al0) (List.mem_cons_self _ _) ht0 alt halt
      · exact fun pr hpr hne => hcross pr (List.mem_cons_of_mem _ hpr) hne
      · exact (List.nodup_cons.mp hnodup).2

theorem targetVal_of_find_none (found : List (String × Option String)) (hs : List String)
    (row : List String) (t : String)
    (h : found.find? (fun p => p.1 == t) = some (t, none)) :
    targetVal found hs row t = 0 := by
  unfold targetVal
  rw [h]

/-- C8: for a yearly file whose employer column is detected, each of the
four numeric outcome fields for which no alias matches any header is
defaulted to an all-zero column, with a warning recorded for that field; in
particular a file in which no alias matches any of the four fields is still
processed without error, with all four warnings and
`Total_Applications = 0` on every row. -/
theorem zero_fill_missing_columns (year : ℤ) (f : RawFile)
    (hemp : ∃ a ∈ empAliases, a ∈ f.headers.map normalizeHeader) :
    ((processFile year f).toOption.isSome = true) ∧
    ∀ p, processFile year f = .ok p →
      (∀ t al, (t, al) ∈ name_map →
        (∀ alt ∈ al, ∀ c ∈ f.headers, aliasMatch (normalizeHeader c) alt = false) →
        t ∈ p.2 ∧ ∀ r ∈ p.1, fieldOf r t = 0) ∧
      ((∀ pr ∈ name_map, ∀ alt ∈ pr.2, ∀ c ∈ f.headers,
          aliasMatch (normalizeHeader c) alt = false) →
        p.2 = ["Initial_Approvals", "Continuing_Approvals", "Initial_Denials",
               "Continuing_Denials"] ∧
        p.1.length = f.rows.length ∧
        ∀ r ∈ p.1, r.Total_Applications = 0) := by
  obtain ⟨a, ha, hacol⟩ := hemp
  cases hd : detect_employer_column (f.headers.map normalizeHeader) with
  | error e => exact absurd hacol (detect_error_not_mem _ _ hd a ha)
  | ok emp =>
    have hpf : processFile year f = .ok
        (f.rows.map (mkCleanRow year
          ((f.headers.map normalizeHeader).map (fun c => if c == emp then "Employer" else c))
          (resolveTargets ((f.headers.map normalizeHeader).map
            (fun c => if c == emp then "Employer" else c)))),
         ((resolveTargets ((f.headers.map normalizeHeader).map
             (fun c => if c == emp then "Employer" else c))).filter
            (fun p => p.2 = none)).map (fun p => p.1)) := by
      simp only [processFile, hd]
    refine ⟨by rw [hpf]; rfl, ?_⟩
    intro p hp
    rw [hpf] at hp
    cases hp
    constructor
    · intro t al hmem hnone
      have hns : ∀ alt ∈ al, ∀ c ∈ (f.headers.map normalizeHeader).map
          (fun c => if c == emp then "Employer" else c), aliasMatch c alt = false := by
        intro alt halt c hc
        obtain ⟨c0, hc0, rfl⟩ := List.mem_map.mp hc
        by_cases he : c0 == emp
        · rw [if_pos he]
          exact empRenameNoMatch (t, al) hmem alt halt
        · rw [if_neg he]
          obtain ⟨h0, hh0, rfl⟩ := List.mem_map.mp hc0
          exact hnone alt halt h0 hh0
      have hfind : (resolveTargets ((f.headers.map normalizeHeader).map
          (fun c => if c == emp then "Employer" else c))).find? (fun p => p.1 == t) =
          some (t, none) :=
        resolveAux_find_none name_map _ t al hmem hns
          (fun pr hpr hne => targetNamesNoCrossMatch pr hpr (t, al) hmem hne)
          nameMapNamesNodup
      refine ⟨?_, ?_⟩
      · exact List.mem_map.mpr ⟨(t, none),
          List.mem_filter.mpr ⟨List.mem_of_find?_eq_some hfind, by simp⟩, rfl⟩
      · intro r hr
        obtain ⟨row, hrow, rfl⟩ := List.mem_map.mp hr
        have hzero : targetVal (resolveTargets ((f.headers.map normalizeHeader).map
            (fun c => if c == emp then "Employer" else c)))
            ((f.headers.map normalizeHeader).map (fun c => if c == emp then "Employer" else c))
            row t = 0 :=
          targetVal_of_find_none _ _ _ _ hfind
        simp only [name_map, List.mem_cons, List.not_mem_nil, or_false] at hmem
        rcases hmem with h | h | h | h
        all_goals
          injection h with he1 he2
          subst he1
          exact hzero
    · intro hall
      have hres : resolveTargets ((f.headers.map normalizeHeader).map
          (fun c => if c == emp then "Employer" else c)) =
          name_map.map (fun p => (p.1, none)) := by
        apply resolveAux_none
        · intro pr hpr alt halt c hc
          obtain ⟨c0, hc0, rfl⟩ := List.mem_map.mp hc
          by_cases he : c0 == emp
          · rw [if_pos he]
            exact empRenameNoMatch pr hpr alt halt
          · rw [if_neg he]
            obtain ⟨h0, hh0, rfl⟩ := List.mem_map.mp hc0
            exact hall pr hpr alt halt h0 hh0
        · exact nameMapPairwise
      refine ⟨by rw [hres]; rfl, by simp, ?_⟩
      intro r hr
      obtain ⟨row, hrow, rfl⟩ := List.mem_map.mp hr
      rw [hres]
      unfold mkCleanRow
      simp only [targetVal_all_none]
      norm_num

/-- Witness for C8 on a concrete file with an employer column, one matched
numeric column and the other three missing. -/
theorem zero_fill_missing_columns_witness :
    (processFile 2015 ⟨["Employer", "Initial Approvals"], [["x", "7"]]⟩).toOption.isSome =
      true :=
  (zero_fill_missing_columns 2015 ⟨["Employer", "Initial Approvals"], [["x", "7"]]⟩
    ⟨"Employer", by decide, by decide⟩).1

theorem cleanCell_of_parse_none (s : String)
    (h : parseCleaned (if (stripCell s).isEmpty then "0" else ⟨stripCell s⟩) = none) :
    cleanCell s = 0 := by
  unfold cleanCell
  simp only [h, Option.getD_none]

theorem cleanCell_empty : cleanCell "" = 0 := by
  have hp : parseDigits "0" = some (false, 0, 0, 0) := by decide
  have hs : stripCell "" = [] := by decide
  simp [cleanCell, parseCleaned, hs, hp, digitsVal]

theorem targetVal_nat (found : List (String × Option String)) (hs : List String)
    (row : List String) (t : String)
    (hrow : ∀ s ∈ row, ∃ n : ℕ, cleanCell s = (n : ℚ)) :
    ∃ n : ℕ, targetVal found hs row t = (n : ℚ) := by
  unfold targetVal
  cases hf : found.find? (fun p => p.1 == t) with
  | none => exact ⟨0, rfl⟩
  | some pr =>
    obtain ⟨t', oc⟩ := pr
    cases oc with
    | none => exact ⟨0, rfl⟩
    | some c =>
      cases hg : (hs.findIdx? (fun h => h == c)).bind (fun i => row.get? i) with
      | none =>
        have hcell : getCellByName hs row c = "" := by
          unfold getCellByName
          rw [hg]
          rfl
        show ∃ n : ℕ, cleanCell (getCellByName hs row c) = (n : ℚ)
        rw [hcell, cleanCell_empty]
        exact ⟨0, by simp⟩
      | some s =>
        have hcell : getCellByName hs row c = s := by
          unfold getCellByName
          rw [hg]
          rfl
        have hmem : s ∈ row := by
          cases hi : hs.findIdx? (fun h => h == c) with
          | none => rw [hi] at hg; cases hg
          | some i =>
            rw [hi] at hg
            exact List.get?_mem hg
        show ∃ n : ℕ, cleanCell (getCellByName hs row c) = (n : ℚ)
        rw [hcell]
        exact hrow s hmem

theorem load_files_mem (files : List (ℤ × RawFile)) (out : List CleanRow)
    (h : load_files files = .ok out) :
    ∀ r ∈ out, ∃ p ∈ files, ∃ q, processFile p.1 p.2 = .ok q ∧ r ∈ q.1 := by
  induction files generalizing out with
  | nil =>
    unfold load_files at h
    cases h
    intro r hr
    cases hr
  | cons pf rest ih =>
    obtain ⟨y, f⟩ := pf
    unfold load_files at h
    cases h1 : processFile y f with
    | error e =>
      rw [h1] at h
      cases h2 : load_files rest with
      | error e2 => rw [h2] at h; cases h
      | ok more => rw [h2] at h; cases h
    | ok q =>
      rw [h1] at h
      cases h2 : load_files rest with
      | error e => rw [h2] at h; cases h
      | ok more =>
        rw [h2] at h
        cases h
        intro r hr
        rcases List.mem_append.mp hr with hl | hrm
        · exact ⟨(y, f), List.mem_cons_self _ _, q, h1, hl⟩
        · obtain ⟨p, hp, q', hq', hr'⟩ := ih more h2 r hrm
          exact ⟨p, List.mem_cons_of_mem _ hp, q', hq', hr'⟩

theorem processFile_row_totals (y : ℤ) (f : RawFile) (q : List CleanRow × List String)
    (h : processFile y f = .ok q)
    (hc : ∀ row ∈ f.rows, ∀ s ∈ row, ∃ n : ℕ, cleanCell s = (n : ℚ)) :
    ∀ r ∈ q.1, (∃ n : ℕ, r.Total_Approvals = (n : ℚ)) ∧
      (∃ n : ℕ, r.Total_Denials = (n : ℚ)) ∧
      r.Total_Applications = r.Total_Approvals + r.Total_Denials := by
  unfold processFile at h
  cases hd : detect_employer_column (f.headers.map normalizeHeader) with
  | error e => simp only [hd, reduceCtorEq] at h
  | ok emp =>
    simp only [hd] at h
    cases h
    intro r hr
    obtain ⟨row, hrow, rfl⟩ := List.mem_map.mp hr
    obtain ⟨n1, h1⟩ := targetVal_nat
      (resolveTargets ((f.headers.map normalizeHeader).map
        (fun c => if c == emp then "Employer" else c)))
      ((f.headers.map normalizeHeader).map (fun c => if c == emp then "Employer" else c))
      row "Initial_Approvals" (hc row hrow)
    obtain ⟨n2, h2⟩ := targetVal_nat
      (resolveTargets ((f.headers.map normalizeHeader).map
        (fun c => if c == emp then "Employer" else c)))
      ((f.headers.map normalizeHeader).map (fun c => if c == emp then "Employer" else c))
      row "Continuing_Approvals" (hc row hrow)
    obtain ⟨n3, h3⟩ := targetVal_nat
      (resolveTargets ((f.headers.map normalizeHeader).map
        (fun c => if c == emp then "Employer" else c)))
      ((f.headers.map normalizeHeader).map (fun c => if c == emp then "Employer" else c))
      row "Initial_Denials" (hc row hrow)
    obtain ⟨n4, h4⟩ := targetVal_nat
      (resolveTargets ((f.headers.map normalizeHeader).map
        (fun c => if c == emp then "Employer" else c)))
      ((f.headers.map normalizeHeader).map (fun c => if c == emp then "Employer" else c))
      row "Continuing_Denials" (hc row hrow)
    unfold mkCleanRow
    refine ⟨⟨n1 + n2, ?_⟩, ⟨n3 + n4, ?_⟩, ?_⟩
    · rw [h1, h2]
      push_cast
      ring
    · rw [h3, h4]
      push_cast
      ring
    · rfl

theorem truncQ_natCast (n : ℕ) : truncQ (n : ℚ) = (n : ℤ) := by
  unfold truncQ
  rw [if_pos (by positivity)]
  exact Int.floor_natCast n


theorem truncQ_intCast (m : ℤ) : truncQ (m : ℚ) = m := by
  unfold truncQ
  split
  · exact Int.floor_intCast m
  · exact Int.ceil_intCast m

theorem cleanCell_eval (s : String) (d : Bool × ℕ × ℕ × ℕ)
    (h : parseDigits (if (stripCell s).isEmpty then "0" else ⟨stripCell s⟩) = some d) :
    cleanCell s = digitsVal d := by
  unfold cleanCell parseCleaned
  simp only [h, Option.map_some', Option.getD_some]

theorem load_single_eval (y : ℤ) (e a b : String) :
    load_and_clean [(y, ⟨["Employer", "Initial Approvals", "Initial Denials"], [[e, a, b]]⟩)] =
      .ok [{ Employer := e,
             Total_Approvals := truncQ (cleanCell a + 0),
             Total_Denials := truncQ (cleanCell b + 0),
             Total_Applications := truncQ ((cleanCell a + 0) + (cleanCell b + 0)),
             Year := y }] := rfl

/-- C1 amended: when every raw cell coerces to a nonnegative integer, every
row of the unified table satisfies
`Total_Applications = Total_Approvals + Total_Denials` with all three
nonnegative; and non-numeric cells (parse failures) coerce to zero, never to
a missing value. -/
theorem unified_totals_amended (files : List (ℤ × RawFile))
    (hcells : ∀ p ∈ files, ∀ row ∈ (p.2 : RawFile).rows, ∀ s ∈ row,
        ∃ n : ℕ, cleanCell s = (n : ℚ)) :
    (∀ out, load_and_clean files = .ok out →
       ∀ u ∈ out, u.Total_Applications = u.Total_Approvals + u.Total_Denials ∧
         0 ≤ u.Total_Approvals ∧ 0 ≤ u.Total_Denials ∧ 0 ≤ u.Total_Applications) ∧
    (∀ s : String,
       parseCleaned (if (stripCell s).isEmpty then "0" else ⟨stripCell s⟩) = none →
       cleanCell s = 0) := by
  refine ⟨?_, cleanCell_of_parse_none⟩
  intro out hok u hu
  unfold load_and_clean at hok
  split at hok
  · cases hok
  · cases hl : load_files files with
    | error e => rw [hl] at hok; cases hok
    | ok rows =>
      rw [hl] at hok
      cases hok
      obtain ⟨r, hr, rfl⟩ := List.mem_map.mp hu
      obtain ⟨p, hp, q, hq, hrq⟩ := load_files_mem files rows hl r hr
      obtain ⟨⟨n1, h1⟩, ⟨n2, h2⟩, h3⟩ :=
        processFile_row_totals p.1 p.2 q hq (hcells p hp) r hrq
      simp only [finalize]
      rw [h3, h1, h2]
      have hsum : ((n1 : ℚ) + (n2 : ℚ)) = ((n1 + n2 : ℕ) : ℚ) := by push_cast; ring
      rw [hsum, truncQ_natCast, truncQ_natCast, truncQ_natCast]
      refine ⟨by push_cast; ring, ?_, ?_, ?_⟩ <;> positivity


/-- C1 counterexample: raw cells `-0.5` are not clamped to zero — the
resulting unified row has `Total_Applications = -1 < 0`, and after the final
integer cast the row violates
`Total_Applications = Total_Approvals + Total_Denials` (`-1` vs `0 + 0`). -/
theorem unified_totals_counterexample :
    load_and_clean [(2020, ⟨["Employer", "Initial Approvals", "Initial Denials"],
        [["x", "-0.5", "-0.5"]]⟩)] =
      .ok [{ Employer := "x", Total_Approvals := 0, Total_Denials := 0,
             Total_Applications := -1, Year := 2020 }] ∧
    ¬((-1 : ℤ) = 0 + 0 ∧ 0 ≤ (-1 : ℤ)) := by
  constructor
  · rw [load_single_eval]
    have hc : cleanCell "-0.5" = -1/2 := by
      rw [cleanCell_eval "-0.5" (true, 0, 5, 1) (by decide)]
      norm_num [digitsVal]
    rw [hc]
    have e1 : truncQ ((-1/2 : ℚ) + 0) = 0 := by
      rw [truncQ, if_neg (by norm_num)]
      norm_num
    have e3 : truncQ (((-1/2 : ℚ) + 0) + ((-1/2 : ℚ) + 0)) = -1 := by
      have h : (((-1/2 : ℚ) + 0) + ((-1/2 : ℚ) + 0)) = ((-1 : ℤ) : ℚ) := by norm_num
      rw [h, truncQ_intCast]
    rw [e1, e3]
  · norm_num

/-- Witness for amended C1 on a concrete file with cells `3` and `0`. -/
theorem unified_totals_amended_witness :
    ({ Employer := "x", Total_Approvals := 3, Total_Denials := 0,
       Total_Applications := 3, Year := 2020 } : UnifiedRow).Total_Applications =
      ({ Employer := "x", Total_Approvals := 3, Total_Denials := 0,
         Total_Applications := 3, Year := 2020 } : UnifiedRow).Total_Approvals +
      ({ Employer := "x", Total_Approvals := 3, Total_Denials := 0,
         Total_Applications := 3, Year := 2020 } : UnifiedRow).Total_Denials ∧
    0 ≤ ({ Employer := "x", Total_Approvals := 3, Total_Denials := 0,
           Total_Applications := 3, Year := 2020 } : UnifiedRow).Total_Approvals ∧
    0 ≤ ({ Employer := "x", Total_Approvals := 3, Total_Denials := 0,
           Total_Applications := 3, Year := 2020 } : UnifiedRow).Total_Denials ∧
    0 ≤ ({ Employer := "x", Total_Approvals := 3, Total_Denials := 0,
           Total_Applications := 3, Year := 2020 } : UnifiedRow).Total_Applications := by
  have hc3 : cleanCell "3" = 3 := by
    rw [cleanCell_eval "3" (false, 3, 0, 0) (by decide)]
    norm_num [digitsVal]
  have hc0 : cleanCell "0" = 0 := by
    rw [cleanCell_eval "0" (false, 0, 0, 0) (by decide)]
    norm_num [digitsVal]
  have hcx : cleanCell "x" = 0 := by
    rw [cleanCell_eval "x" (false, 0, 0, 0) (by decide)]
    norm_num [digitsVal]
  have hcells : ∀ p ∈ [((2020 : ℤ),
      (⟨["Employer", "Initial Approvals", "Initial Denials"],
        [["x", "3", "0"]]⟩ : RawFile))],
      ∀ row ∈ (p.2 : RawFile).rows, ∀ s ∈ row, ∃ n : ℕ, cleanCell s = (n : ℚ) := by
    intro p hp row hrow s hs
    simp only [List.mem_singleton] at hp
    subst hp
    simp only [List.mem_singleton] at hrow
    subst hrow
    simp only [List.mem_cons, List.mem_singleton] at hs
    rcases hs with rfl | rfl | rfl | h
    · exact ⟨0, by rw [hcx]; norm_num⟩
    · exact ⟨3, by rw [hc3]; norm_num⟩
    · exact ⟨0, by rw [hc0]; norm_num⟩
    · cases h
  have hok : load_and_clean [((2020 : ℤ),
      (⟨["Employer", "Initial Approvals", "Initial Denials"],
        [["x", "3", "0"]]⟩ : RawFile))] =
      .ok [{ Employer := "x", Total_Approvals := 3, Total_Denials := 0,
             Total_Applications := 3, Year := 2020 }] := by
    rw [load_single_eval, hc3, hc0]
    have e1 : truncQ ((3 : ℚ) + 0) = 3 := by
      have h : ((3 : ℚ) + 0) = ((3 : ℤ) : ℚ) := by norm_num
      rw [h, truncQ_intCast]
    have e2 : truncQ ((0 : ℚ) + 0) = 0 := by
      have h : ((0 : ℚ) + 0) = ((0 : ℤ) : ℚ) := by norm_num
      rw [h, truncQ_intCast]
    have e3 : truncQ (((3 : ℚ) + 0) + ((0 : ℚ) + 0)) = 3 := by
      have h : (((3 : ℚ) + 0) + ((0 : ℚ) + 0)) = ((3 : ℤ) : ℚ) := by norm_num
      rw [h, truncQ_intCast]
    rw [e1, e2, e3]
  exact (unified_totals_amended _ hcells).1 _ hok _ (by simp)


theorem lookupV_upsert_self (r : PRow) (c : String) (v : Val) :
    lookupV (upsert r c v) c = some v := by
  induction r with
  | nil => simp [upsert, lookupV, List.find?]
  | cons p t ih =>
    obtain ⟨k, w⟩ := p
    unfold upsert
    split
    · simp [lookupV, List.find?]
    · simpa [lookupV, List.find?, *] using ih

theorem lookupV_upsert_ne (r : PRow) (c c' : String) (v : Val) (h : c' ≠ c) :
    lookupV (upsert r c v) c' = lookupV r c' := by
  have hcc : (c == c') = false := beq_eq_false_iff_ne.mpr (fun he => h he.symm)
  induction r with
  | nil =>
    simp [upsert, lookupV, List.find?, hcc]
  | cons p t ih =>
    obtain ⟨k, w⟩ := p
    unfold upsert
    split
    case isTrue hk =>
      have hkc : k = c := by simpa using hk
      subst hkc
      simp [lookupV, List.find?, hcc]
    case isFalse hk =>
      simp only [lookupV, List.find?]
      cases hkc : (k == c') with
      | true => rfl
      | false => simpa [lookupV] using ih


theorem getStr_upsert_self_vstr (r : PRow) (k v : String) :
    getStr (upsert r k (.vstr v)) k = v := by
  unfold getStr
  rw [lookupV_upsert_self]
  rfl

theorem getStr_upsert_ne (r : PRow) (k c : String) (v : Val) (h : c ≠ k) :
    getStr (upsert r k v) c = getStr r c := by
  unfold getStr
  rw [lookupV_upsert_ne _ _ _ _ h]

theorem getBool_upsert_self_vbool (r : PRow) (k : String) (b : Bool) :
    getBool (upsert r k (.vbool b)) k = b := by
  unfold getBool
  rw [lookupV_upsert_self]

theorem getBool_upsert_ne (r : PRow) (k c : String) (v : Val) (h : c ≠ k) :
    getBool (upsert r k v) c = getBool r c := by
  unfold getBool
  rw [lookupV_upsert_ne _ _ _ _ h]

theorem integrateRow_std (fK oK cK : List String) (r : PRow) :
    lookupV (integrateRow fK oK cK r) "Employer_std" =
      some (.vstr (canon (asStr (lookupV r "Employer")))) := by
  simp [integrateRow, lookupV_upsert_self, lookupV_upsert_ne, getStr_upsert_self_vstr,
    getStr_upsert_ne, getBool_upsert_self_vbool, getBool_upsert_ne]

theorem integrateRow_fortune (fK oK cK : List String) (r : PRow) :
    lookupV (integrateRow fK oK cK r) "Fortune500" =
      some (.vbool (fK.contains (canon (asStr (lookupV r "Employer"))))) := by
  simp [integrateRow, lookupV_upsert_self, lookupV_upsert_ne, getStr_upsert_self_vstr,
    getStr_upsert_ne, getBool_upsert_self_vbool, getBool_upsert_ne]

theorem integrateRow_opt (fK oK cK : List String) (r : PRow) :
    lookupV (integrateRow fK oK cK r) "OPT_friendly" =
      some (.vbool (oK.contains (canon (asStr (lookupV r "Employer"))))) := by
  simp [integrateRow, lookupV_upsert_self, lookupV_upsert_ne, getStr_upsert_self_vstr,
    getStr_upsert_ne, getBool_upsert_self_vbool, getBool_upsert_ne]

theorem integrateRow_cpt (fK oK cK : List String) (r : PRow) :
    lookupV (integrateRow fK oK cK r) "CPT_friendly" =
      some (.vbool (cK.contains (canon (asStr (lookupV r "Employer"))))) := by
  simp [integrateRow, lookupV_upsert_self, lookupV_upsert_ne, getStr_upsert_self_vstr,
    getStr_upsert_ne, getBool_upsert_self_vbool, getBool_upsert_ne]

theorem integrateRow_flex (fK oK cK : List String) (r : PRow) :
    lookupV (integrateRow fK oK cK r) "Flexibility_Index" =
      some (.vint (boolInt (oK.contains (canon (asStr (lookupV r "Employer")))) +
        boolInt (cK.contains (canon (asStr (lookupV r "Employer")))))) := by
  simp [integrateRow, lookupV_upsert_self, lookupV_upsert_ne, getStr_upsert_self_vstr,
    getStr_upsert_ne, getBool_upsert_self_vbool, getBool_upsert_ne]


/-- C6: each of the three membership flags — `Fortune500`, `OPT_friendly`,
`CPT_friendly` — is exact set inclusion of the canonical key (uppercased,
whitespace-trimmed employer name) in the respective canonicalized reference
list, with no other normalization; `"  acme inc "` canonicalizes to
`"ACME INC"` and matches a reference entry `"ACME INC"`, while `"ACME  INC"`
(an internal-whitespace near-duplicate) does not match. -/
theorem employer_membership_exact :
    (∀ (fortuneNames optNames cptNames : List String) (df : List PRow),
       (integrate_employers fortuneNames optNames cptNames df).map
           (fun r => lookupV r "Fortune500") =
         df.map (fun r => some (Val.vbool ((fortuneNames.map canon).contains
           (canon (asStr (lookupV r "Employer"))))))) ∧
    (∀ (fortuneNames optNames cptNames : List String) (df : List PRow),
       (integrate_employers fortuneNames optNames cptNames df).map
           (fun r => lookupV r "OPT_friendly") =
         df.map (fun r => some (Val.vbool ((optNames.map canon).contains
           (canon (asStr (lookupV r "Employer"))))))) ∧
    (∀ (fortuneNames optNames cptNames : List String) (df : List PRow),
       (integrate_employers fortuneNames optNames cptNames df).map
           (fun r => lookupV r "CPT_friendly") =
         df.map (fun r => some (Val.vbool ((cptNames.map canon).contains
           (canon (asStr (lookupV r "Employer"))))))) ∧
    ((integrate_employers ["ACME INC"] [] []
        [[("Employer", Val.vstr "  acme inc ")], [("Employer", Val.vstr "ACME  INC")]]).map
        (fun r => lookupV r "Employer_std") =
      [some (Val.vstr "ACME INC"), some (Val.vstr "ACME  INC")]) ∧
    ((integrate_employers ["ACME INC"] [] []
        [[("Employer", Val.vstr "  acme inc ")], [("Employer", Val.vstr "ACME  INC")]]).map
        (fun r => lookupV r "Fortune500") =
      [some (Val.vbool true), some (Val.vbool false)]) := by
  refine ⟨?_, ?_, ?_, by decide, by decide⟩
  · intro F O C df
    unfold integrate_employers
    rw [List.map_map]
    apply List.map_congr_left
    intro r _
    exact integrateRow_fortune _ _ _ r
  · intro F O C df
    unfold integrate_employers
    rw [List.map_map]
    apply List.map_congr_left
    intro r _
    exact integrateRow_opt _ _ _ r
  · intro F O C df
    unfold integrate_employers
    rw [List.map_map]
    apply List.map_congr_left
    intro r _
    exact integrateRow_cpt _ _ _ r

/-- C7: every record produced by `integrate_employers` has
`Flexibility_Index` equal to the count of true flags among `OPT_friendly`
and `CPT_friendly`, hence in {0, 1, 2}; the large-enterprise list never
affects this column. -/
theorem flexibility_index_opt_cpt :
    (∀ (fortuneNames optNames cptNames : List String) (df : List PRow),
       (integrate_employers fortuneNames optNames cptNames df).map
           (fun r => lookupV r "Flexibility_Index") =
         df.map (fun r => some (Val.vint
           (boolInt ((optNames.map canon).contains (canon (asStr (lookupV r "Employer")))) +
            boolInt ((cptNames.map canon).contains (canon (asStr (lookupV r "Employer")))))))) ∧
    (∀ (fortuneNames optNames cptNames : List String) (df : List PRow),
       ∀ r ∈ integrate_employers fortuneNames optNames cptNames df,
         ∃ n : ℤ, lookupV r "Flexibility_Index" = some (.vint n) ∧ 0 ≤ n ∧ n ≤ 2) ∧
    (∀ (f1 f2 optNames cptNames : List String) (df : List PRow),
       (integrate_employers f1 optNames cptNames df).map
           (fun r => lookupV r "Flexibility_Index") =
         (integrate_employers f2 optNames cptNames df).map
           (fun r => lookupV r "Flexibility_Index")) := by
  have hmain : ∀ (F O C : List String) (df : List PRow),
      (integrate_employers F O C df).map (fun r => lookupV r "Flexibility_Index") =
        df.map (fun r => some (Val.vint
          (boolInt ((O.map canon).contains (canon (asStr (lookupV r "Employer")))) +
           boolInt ((C.map canon).contains (canon (asStr (lookupV r "Employer"))))))) := by
    intro F O C df
    unfold integrate_employers
    rw [List.map_map]
    apply List.map_congr_left
    intro r _
    exact integrateRow_flex _ _ _ r
  refine ⟨hmain, ?_, ?_⟩
  · intro F O C df r hr
    unfold integrate_employers at hr
    obtain ⟨r0, hr0, rfl⟩ := List.mem_map.mp hr
    refine ⟨_, integrateRow_flex _ _ _ r0, ?_⟩
    cases h1 : (O.map canon).contains (canon (asStr (lookupV r0 "Employer"))) <;>
      cases h2 : (C.map canon).contains (canon (asStr (lookupV r0 "Employer"))) <;>
        norm_num [boolInt]
  · intro f1 f2 O C df
    rw [hmain, hmain]

/-- Witness for C7 at a concrete record. -/
theorem flexibility_index_opt_cpt_witness :
    ∃ n : ℤ, lookupV (integrateRow [] (["A"].map canon) [] [("Employer", Val.vstr "A")])
        "Flexibility_Index" = some (.vint n) ∧ 0 ≤ n ∧ n ≤ 2 :=
  flexibility_index_opt_cpt.2.1 [] ["A"] [] [[("Employer", Val.vstr "A")]]
    (integrateRow ([] : List String) (["A"].map canon) ([] : List String)
      [("Employer", Val.vstr "A")]) (by simp [integrate_employers])

/-- C5 counterexample: `integrate_employers` writes its derived columns
into the caller's table without copying, so the input table after the call
differs from the original input. -/
theorem integrate_mutates_input :
    integrate_employers_argAfter [] [] [] [[("Employer", Val.vstr "A")]] ≠
      [[("Employer", Val.vstr "A")]] := by decide

/-- C5 amended: the input table after `integrate_employers` is exactly the
returned table (the five derived columns are written in place), and every
column other than those five is unchanged; `simulate_fee_change` leaves its
input unchanged (it copies at line 60) but never returns an output table at
all — both of its branches raise. -/
theorem integrate_mutation_scope :
    (∀ (fortuneNames optNames cptNames : List String) (df : List PRow),
        integrate_employers_argAfter fortuneNames optNames cptNames df =
          integrate_employers fortuneNames optNames cptNames df) ∧
    (∀ (fortuneNames optNames cptNames : List String) (df : List PRow) (c : String),
        c ∉ (["Employer_std", "Fortune500", "OPT_friendly", "CPT_friendly",
              "Flexibility_Index"] : List String) →
        (integrate_employers_argAfter fortuneNames optNames cptNames df).map
            (fun r => lookupV r c) =
          df.map (fun r => lookupV r c)) ∧
    (∀ (df : QFrame) (alpha eLow eHigh : ℚ) (s : List SummaryRow),
        simulate_fee_change df alpha eLow eHigh ≠ .ok s) ∧
    (∀ (df : QFrame) (alpha eLow eHigh : ℚ),
        simulate_fee_change_argAfter df alpha eLow eHigh = df) := by
  refine ⟨fun _ _ _ _ => rfl, ?_, ?_, fun _ _ _ _ => rfl⟩
  case refine_2 =>
    intro df alpha eLow eHigh s
    unfold simulate_fee_change
    cases h : df.cols.contains "Flexibility_Index" <;> simp
  intro F O C df c hc
  simp only [List.mem_cons, List.not_mem_nil, or_false, not_or] at hc
  obtain ⟨h1, h2, h3, h4, h5⟩ := hc
  unfold integrate_employers_argAfter integrate_employers
  rw [List.map_map]
  apply List.map_congr_left
  intro r _
  show lookupV (integrateRow _ _ _ r) c = lookupV r c
  unfold integrateRow
  rw [lookupV_upsert_ne _ _ _ _ h5, lookupV_upsert_ne _ _ _ _ h4,
      lookupV_upsert_ne _ _ _ _ h3, lookupV_upsert_ne _ _ _ _ h2,
      lookupV_upsert_ne _ _ _ _ h1]

/-- Witness for amended C5: the `Employer` column of a concrete table is
unchanged by the call. -/
theorem integrate_mutation_scope_witness :
    (integrate_employers_argAfter ["ACME INC"] [] [] [[("Employer", Val.vstr "A")]]).map
        (fun r => lookupV r "Employer") =
      [[("Employer", Val.vstr "A")]].map (fun r => lookupV r "Employer") :=
  integrate_mutation_scope.2.1 ["ACME INC"] [] [] [[("Employer", Val.vstr "A")]] "Employer"
    (by decide)

end H1B
